import Mathlib

/-!
Verification of the Analytiscout member-aggregation and staffing-compliance
engine.  Every definition below is a shallow embedding of the corresponding
Python code under src/ (file and line references given per definition).
Strings manipulated with case mapping are embedded as lists of Unicode code
points (`Str := List Nat`); Python `str.lower`/`str.upper` are modelled on the
ASCII letter range, which covers every label the engine compares.  Machine
integers are embedded as `Int` (Python ints are unbounded, so no wrap-around
is modelled).  Fallible code (the row-styling `try`/`except`) is embedded
with `Except`.
-/

/-- Strings as lists of Unicode code points. -/
abbrev Str : Type := List Nat

/-- Code points of a Lean string literal. -/
def strCodes (s : String) : Str := s.toList.map Char.toNat

/-- ASCII lower-casing of one code point, the model of Python str.lower. -/
def lowerN (c : Nat) : Nat := if 65 ≤ c ∧ c ≤ 90 then c + 32 else c

/-- ASCII upper-casing of one code point, the model of Python str.upper. -/
def upperN (c : Nat) : Nat := if 97 ≤ c ∧ c ≤ 122 then c - 32 else c

/-- Lower-cased string, the model of fonction.lower(). -/
def sLower (s : Str) : Str := s.map lowerN

/-- Upper-cased string, the model of fonction.upper(). -/
def sUpper (s : Str) : Str := s.map upperN

/-- The apostrophe code point. -/
def apos : Nat := 39

/-- The message string Manque d apostrophe encadrement returned by the quota
checker in src/page_statistiques.py line 230. -/
def msgManque : String := "Manque d" ++ (Char.ofNat 39).toString ++ "encadrement"

/-- One tier of the SGDF staffing table: required total adults, required
directors, required qualified adults.  From src/page_statistiques.py
lines 195-203. -/
structure Palier where
  total : Int
  dir : Int
  qual : Int
deriving DecidableEq

/-- The tier table `paliers` of src/page_statistiques.py lines 195-203,
keyed by the inclusive youth-headcount range. -/
def paliers : List ((Int × Int) × Palier) :=
  [((7, 12), ⟨2, 1, 1⟩),
   ((13, 24), ⟨3, 1, 1⟩),
   ((25, 36), ⟨4, 1, 2⟩),
   ((37, 48), ⟨5, 1, 2⟩),
   ((49, 60), ⟨6, 1, 3⟩),
   ((61, 72), ⟨7, 1, 3⟩),
   ((73, 84), ⟨8, 1, 4⟩)]

/-- The `next(...)` tier lookup of src/page_statistiques.py line 205:
first table entry whose range contains the headcount. -/
def findPalier (n : Int) : Option Palier :=
  (paliers.find? (fun p => decide (p.1.1 ≤ n) && decide (n ≤ p.1.2))).map (fun p => p.2)

/-- Shortfall map construction of src/page_statistiques.py lines 210-228,
for a given tier.  The map is embedded as an insertion-ordered association
list, mirroring the Python dict `manquants`. -/
def manquants_for (c : Palier) (nbDir nbQual nbStag nbAutres : Int) : List (String × Int) :=
  let m1 := if nbDir < c.dir then [("Directeur", c.dir - nbDir)] else []
  let m2 := if nbDir + nbQual < c.qual then
      m1 ++ [("Qualifié (BAFA/Appro/Tech)", c.qual - (nbDir + nbQual))]
    else m1
  let totalActuel := nbDir + nbQual + nbStag + nbAutres
  if totalActuel < c.total then
    let diffTotal := c.total - totalActuel
    let besoinsFixes := (m2.map (fun p => p.2)).sum
    if besoinsFixes < diffTotal then
      m2 ++ [("Encadrant supplémentaire", diffTotal - besoinsFixes)]
    else m2
  else m2

/-- verifier_quotas_camp_sgdf of src/page_statistiques.py lines 186-230:
returns (isCompliant, message, shortfall map). -/
def verifier_quotas_camp_sgdf (nbJeunes nbDir nbQual nbStag nbAutres : Int) :
    Bool × String × List (String × Int) :=
  if nbJeunes < 7 then (true, "", [])
  else
    match findPalier nbJeunes with
    | none => (false, "Effectif hors tableau (>84)", [])
    | some c =>
      let m := manquants_for c nbDir nbQual nbStag nbAutres
      (m.isEmpty, if m.isEmpty then "" else msgManque, m)

/-- Modelled from the claim wording for C1: the tier table as the claim
lists it (ranges 7-12, 13-24, 25-36, 37-48, 49-60, 61-72, 73-84 with the
stated requirements), used only to compare against the source table. -/
def paliers_spec : List ((Int × Int) × Palier) :=
  [((7, 12), ⟨2, 1, 1⟩),
   ((13, 24), ⟨3, 1, 1⟩),
   ((25, 36), ⟨4, 1, 2⟩),
   ((37, 48), ⟨5, 1, 2⟩),
   ((49, 60), ⟨6, 1, 3⟩),
   ((61, 72), ⟨7, 1, 3⟩),
   ((73, 84), ⟨8, 1, 4⟩)]

/-- Modelled from the claim wording for C1: shortfalls computed with
max(0, _) formulas — director shortfall under key Directeur when positive,
qualified shortfall (directors counted) when positive, then only the excess
of the total shortfall over the recorded shortfalls. -/
def shortfalls_spec (c : Palier) (d q s o : Int) : List (String × Int) :=
  let mD := max 0 (1 - d)
  let mQ := max 0 (c.qual - (d + q))
  let base := (if 0 < mD then [("Directeur", mD)] else []) ++
    (if 0 < mQ then [("Qualifié (BAFA/Appro/Tech)", mQ)] else [])
  let tShort := c.total - (d + q + s + o)
  if 0 < tShort ∧ mD + mQ < tShort then
    base ++ [("Encadrant supplémentaire", tShort - (mD + mQ))]
  else base

/-- Modelled from the claim wording for C1: select the tier whose range
contains the headcount, then compute the shortfalls; compliant exactly when
the shortfall map is empty. -/
def verifier_spec (n d q s o : Int) : Bool × List (String × Int) :=
  match (paliers_spec.find? (fun p => decide (p.1.1 ≤ n) && decide (n ≤ p.1.2))).map
      (fun p => p.2) with
  | none => (false, [])
  | some c =>
    let m := shortfalls_spec c d q s o
    (m.isEmpty, m)

/-- Lookup of an entry of the shortfall map, 0 when the key is absent. -/
def mval (m : List (String × Int)) (k : String) : Int :=
  ((m.find? (fun p => p.1 == k)).map (fun p => p.2)).getD 0

lemma paliers_spec_eq : paliers_spec = paliers := rfl

lemma palier_dir_one : ∀ e ∈ paliers, e.2.dir = 1 := by decide

lemma findPalier_none_of_gt (n : Int) (h : 84 < n) : findPalier n = none := by
  unfold findPalier
  rw [List.find?_eq_none.mpr]
  · rfl
  · intro a ha
    simp only [paliers, List.mem_cons, List.not_mem_nil, or_false] at ha
    rcases ha with h1 | h1 | h1 | h1 | h1 | h1 | h1 <;> subst h1 <;> simp <;> omega

lemma findPalier_mem (n : Int) (h7 : 7 ≤ n) (h84 : n ≤ 84) :
    ∃ e ∈ paliers, e.1.1 ≤ n ∧ n ≤ e.1.2 ∧ findPalier n = some e.2 := by
  interval_cases n <;> decide

/-- C2: the compliance evaluation is total; below 7 youths it returns
compliant with an empty shortfall map, and above 84 it returns non-compliant
with an empty shortfall map and the distinct out-of-table message,
regardless of the staffing counts. -/
theorem spec_C2_out_of_range :
    (∀ n d q s o : Int, n < 7 → verifier_quotas_camp_sgdf n d q s o = (true, "", [])) ∧
    (∀ n d q s o : Int, 84 < n → verifier_quotas_camp_sgdf n d q s o =
      (false, "Effectif hors tableau (>84)", [])) := by
  constructor
  · intro n d q s o h
    simp [verifier_quotas_camp_sgdf, if_pos h]
  · intro n d q s o h
    have h7 : ¬ n < 7 := by omega
    simp [verifier_quotas_camp_sgdf, if_neg h7, findPalier_none_of_gt n h]

/-- Witness for C2 at the concrete inputs N = 3 and N = 90 with arbitrarily
large staffing. -/
theorem spec_C2_out_of_range_witness :
    verifier_quotas_camp_sgdf 3 0 0 0 0 = (true, "", []) ∧
    verifier_quotas_camp_sgdf 90 1000000 1000000 0 0 =
      (false, "Effectif hors tableau (>84)", []) :=
  ⟨spec_C2_out_of_range.1 3 0 0 0 0 (by decide),
   spec_C2_out_of_range.2 90 1000000 1000000 0 0 (by decide)⟩

set_option maxHeartbeats 1000000 in
lemma manquants_eq_shortfalls (c : Palier) (d q s o : Int) (hc : c.dir = 1) :
    manquants_for c d q s o = shortfalls_spec c d q s o := by
  have hmD : max 0 (1 - d) = if d < 1 then 1 - d else 0 := by split <;> omega
  have hmQ : max 0 (c.qual - (d + q)) = if d + q < c.qual then c.qual - (d + q) else 0 := by
    split <;> omega
  simp only [manquants_for, shortfalls_spec, hc, hmD, hmQ]
  by_cases hA : d < 1 <;> by_cases hB : d + q < c.qual <;>
    simp only [if_pos, if_neg, hA, hB, if_true, if_false, ite_true, ite_false,
      List.map_cons, List.map_nil, List.sum_cons, List.sum_nil, List.nil_append,
      List.append_nil, List.cons_append] <;>
    split_ifs <;> first | rfl | (exfalso; omega) | (simp <;> omega)

lemma verifier_spec_match (n d q s o : Int) :
    verifier_spec n d q s o =
      match findPalier n with
      | none => (false, [])
      | some c => ((shortfalls_spec c d q s o).isEmpty, shortfalls_spec c d q s o) :=
  rfl

/-- C1: for every headcount within the table and any counts, the compliance
evaluation refines the claim-side specification (unique containing tier,
director shortfall max(0, 1 - dir), qualified shortfall counting directors,
then only the excess of the total shortfall beyond the recorded ones;
compliant exactly when the map is empty); the ranges of the table are
pairwise disjoint so the containing tier is unique; and the cited example
evaluate(20, 1, 0, 0, 0) returns non-compliant with shortfalls exactly
Encadrant supplémentaire 2. -/
theorem spec_C1_compliance :
    (∀ n d q s o : Int, 7 ≤ n → n ≤ 84 →
      ((verifier_quotas_camp_sgdf n d q s o).1, (verifier_quotas_camp_sgdf n d q s o).2.2) =
        verifier_spec n d q s o) ∧
    (∀ n : Int, ∀ e1 ∈ paliers_spec, ∀ e2 ∈ paliers_spec,
      e1.1.1 ≤ n → n ≤ e1.1.2 → e2.1.1 ≤ n → n ≤ e2.1.2 → e1 = e2) ∧
    verifier_quotas_camp_sgdf 20 1 0 0 0 =
      (false, msgManque, [("Encadrant supplémentaire", 2)]) := by
  refine ⟨?_, ?_, ?_⟩
  · intro n d q s o h7 h84
    obtain ⟨e, he, hlo, hhi, hf⟩ := findPalier_mem n h7 h84
    have hn7 : ¬ n < 7 := by omega
    have hdir : e.2.dir = 1 := palier_dir_one e he
    rw [verifier_spec_match]
    simp only [verifier_quotas_camp_sgdf, if_neg hn7, hf,
      manquants_eq_shortfalls e.2 d q s o hdir]
  · intro n e1 he1 e2 he2 h1 h2 h3 h4
    rw [paliers_spec_eq] at he1 he2
    fin_cases he1 <;> fin_cases he2 <;> first | rfl | (exfalso; simp_all; omega)
  · decide

/-- Witness for C1 at the concrete tier-range input N = 20, dir = 1. -/
theorem spec_C1_compliance_witness :
    ((verifier_quotas_camp_sgdf 20 1 0 0 0).1, (verifier_quotas_camp_sgdf 20 1 0 0 0).2.2) =
      verifier_spec 20 1 0 0 0 :=
  spec_C1_compliance.1 20 1 0 0 0 (by decide) (by decide)

set_option maxHeartbeats 1000000 in
lemma mvalD_eq (c : Palier) (d q s o : Int) :
    mval (manquants_for c d q s o) "Directeur" = if d < c.dir then c.dir - d else 0 := by
  simp only [manquants_for]
  split_ifs <;> simp [mval]

set_option maxHeartbeats 1000000 in
lemma mvalQ_eq (c : Palier) (d q s o : Int) :
    mval (manquants_for c d q s o) "Qualifié (BAFA/Appro/Tech)" =
      if d + q < c.qual then c.qual - (d + q) else 0 := by
  simp only [manquants_for]
  split_ifs <;> simp [mval]

set_option maxHeartbeats 1000000 in
lemma mvalE_eq (c : Palier) (d q s o : Int) :
    mval (manquants_for c d q s o) "Encadrant supplémentaire" =
      if d + q + s + o < c.total ∧
          (if d < c.dir then c.dir - d else 0) + (if d + q < c.qual then c.qual - (d + q) else 0)
            < c.total - (d + q + s + o) then
        c.total - (d + q + s + o) -
          ((if d < c.dir then c.dir - d else 0) +
            (if d + q < c.qual then c.qual - (d + q) else 0))
      else 0 := by
  simp only [manquants_for]
  split_ifs <;> simp_all [mval] <;> omega

set_option maxHeartbeats 1000000 in
lemma manquants_repair (c : Palier) (d q s o : Int) :
    manquants_for c
        (d + mval (manquants_for c d q s o) "Directeur")
        (q + mval (manquants_for c d q s o) "Qualifié (BAFA/Appro/Tech)")
        s
        (o + mval (manquants_for c d q s o) "Encadrant supplémentaire") = [] := by
  rw [mvalD_eq, mvalQ_eq, mvalE_eq]
  simp only [manquants_for]
  split_ifs <;> first | rfl | (exfalso; omega)

/-- C10: repairing exactly the reported shortfalls restores compliance — for
every in-table headcount and any counts, re-evaluating with the Directeur
entry added to the director count, the qualified entry added to the
qualified count and the extra-adult entry added to the other count (0 when
a key is absent) yields compliant with an empty shortfall map. -/
theorem spec_C10_repair_restores_compliance (n d q s o : Int)
    (h7 : 7 ≤ n) (h84 : n ≤ 84) :
    verifier_quotas_camp_sgdf n
        (d + mval (verifier_quotas_camp_sgdf n d q s o).2.2 "Directeur")
        (q + mval (verifier_quotas_camp_sgdf n d q s o).2.2 "Qualifié (BAFA/Appro/Tech)")
        s
        (o + mval (verifier_quotas_camp_sgdf n d q s o).2.2 "Encadrant supplémentaire") =
      (true, "", []) := by
  obtain ⟨e, he, hlo, hhi, hf⟩ := findPalier_mem n h7 h84
  have hn7 : ¬ n < 7 := by omega
  simp only [verifier_quotas_camp_sgdf, if_neg hn7, hf, manquants_repair]
  rfl

/-- Witness for C10 at the concrete input N = 20, dir = 1 of the spec
example, whose shortfall map is Encadrant supplémentaire 2. -/
theorem spec_C10_repair_witness :
    verifier_quotas_camp_sgdf 20
        (1 + mval (verifier_quotas_camp_sgdf 20 1 0 0 0).2.2 "Directeur")
        (0 + mval (verifier_quotas_camp_sgdf 20 1 0 0 0).2.2 "Qualifié (BAFA/Appro/Tech)")
        0
        (0 + mval (verifier_quotas_camp_sgdf 20 1 0 0 0).2.2 "Encadrant supplémentaire") =
      (true, "", []) :=
  spec_C10_repair_restores_compliance 20 1 0 0 0 (by decide) (by decide)

/-- The prefix pattern responsable d apostrophe unite of
src/data_service.py line 62. -/
def respUnitePat : Str := strCodes "responsable d" ++ [apos] ++ strCodes "unite"

/-- normalize_fonction of src/data_service.py lines 52-78: canonicalizes a
raw role label; none models an absent label. -/
def normalize_fonction (fonction : Option Str) : Str :=
  match fonction with
  | none => strCodes "Non spécifié"
  | some f =>
    if f = [] then strCodes "Non spécifié"
    else if (strCodes "chef ").isPrefixOf (sLower f) || respUnitePat.isPrefixOf (sLower f) then
      strCodes "Chef/Cheftaine"
    else if sUpper f = strCodes "LOUVETEAU" ∨ sUpper f = strCodes "MOUSSAILLON" then
      strCodes "LOUVETEAU/MOUSSAILLON"
    else if sUpper f = strCodes "MOUSSE" ∨ sUpper f = strCodes "SCOUT" then
      strCodes "SCOUT/MOUSSE"
    else if sUpper f = strCodes "PIONNIER" ∨ sUpper f = strCodes "MARIN" then
      strCodes "PIONNIER/MARIN"
    else f

/-- The leadership predicate is_chef of src/data_service.py lines 249-254
(identically src/dashboard.py lines 235-240), evaluated on the raw,
non-normalized role label. -/
def is_chef (fonction : Str) : Bool :=
  (strCodes "chef").isPrefixOf (sLower fonction) ||
  (strCodes "responsable").isPrefixOf (sLower fonction) ||
  (strCodes "compagnon").isPrefixOf (sLower fonction) ||
  (strCodes "accompagnateur").isPrefixOf (sLower fonction)

lemma upperN_lowerN (c : Nat) : upperN (lowerN c) = upperN c := by
  simp only [lowerN, upperN]; split_ifs <;> omega

lemma sUpper_sLower (s : Str) : sUpper (sLower s) = sUpper s := by
  simp only [sUpper, sLower, List.map_map]
  exact List.map_congr_left (fun c _ => upperN_lowerN c)

lemma isPrefixOf_map (g : Nat → Nat) :
    ∀ (p l : List Nat), p.isPrefixOf l = true → (p.map g).isPrefixOf (l.map g) = true
  | [], _, _ => by simp [List.isPrefixOf]
  | a :: as, [], h => by simp [List.isPrefixOf] at h
  | a :: as, b :: bs, h => by
    simp only [List.isPrefixOf, List.map_cons, Bool.and_eq_true, beq_iff_eq] at h ⊢
    exact ⟨by rw [h.1], isPrefixOf_map g as bs h.2⟩

lemma not_prefixOf_lower_of_upper (p f target : Str) (h : sUpper f = target)
    (hne : (sUpper p).isPrefixOf target = false) : p.isPrefixOf (sLower f) = false := by
  cases hb : p.isPrefixOf (sLower f)
  · rfl
  · exfalso
    have h2 := isPrefixOf_map upperN p (sLower f) hb
    have h3 : (sLower f).map upperN = target := by
      rw [← h, ← sUpper_sLower]; rfl
    rw [h3] at h2
    have h4 : (sUpper p).isPrefixOf target = true := h2
    rw [hne] at h4
    exact Bool.noConfusion h4

/-- C5: the role normalizer maps an empty or absent label to Non spécifié,
a label whose lowercase form starts with the chef-space or the responsable
d apostrophe unite prefix to Chef/Cheftaine, case-insensitive exact matches
of the youth categories to their merged categories, and leaves every other
label unchanged; in particular louveteau and Moussaillon map to
LOUVETEAU/MOUSSAILLON and Chef Meute maps to Chef/Cheftaine. -/
theorem spec_C5_normalize :
    (normalize_fonction none = strCodes "Non spécifié" ∧
     normalize_fonction (some []) = strCodes "Non spécifié") ∧
    (∀ f : Str, ((strCodes "chef ").isPrefixOf (sLower f) = true ∨
        respUnitePat.isPrefixOf (sLower f) = true) →
      normalize_fonction (some f) = strCodes "Chef/Cheftaine") ∧
    (∀ f : Str, (sUpper f = strCodes "LOUVETEAU" ∨ sUpper f = strCodes "MOUSSAILLON") →
      normalize_fonction (some f) = strCodes "LOUVETEAU/MOUSSAILLON") ∧
    (∀ f : Str, (sUpper f = strCodes "MOUSSE" ∨ sUpper f = strCodes "SCOUT") →
      normalize_fonction (some f) = strCodes "SCOUT/MOUSSE") ∧
    (∀ f : Str, (sUpper f = strCodes "PIONNIER" ∨ sUpper f = strCodes "MARIN") →
      normalize_fonction (some f) = strCodes "PIONNIER/MARIN") ∧
    (∀ f : Str, f ≠ [] →
      (strCodes "chef ").isPrefixOf (sLower f) = false →
      respUnitePat.isPrefixOf (sLower f) = false →
      sUpper f ≠ strCodes "LOUVETEAU" → sUpper f ≠ strCodes "MOUSSAILLON" →
      sUpper f ≠ strCodes "MOUSSE" → sUpper f ≠ strCodes "SCOUT" →
      sUpper f ≠ strCodes "PIONNIER" → sUpper f ≠ strCodes "MARIN" →
      normalize_fonction (some f) = f) ∧
    (normalize_fonction (some (strCodes "louveteau")) = strCodes "LOUVETEAU/MOUSSAILLON" ∧
     normalize_fonction (some (strCodes "Moussaillon")) = strCodes "LOUVETEAU/MOUSSAILLON" ∧
     normalize_fonction (some (strCodes "Chef Meute")) = strCodes "Chef/Cheftaine") := by
  refine ⟨⟨by decide, by decide⟩, ?_, ?_, ?_, ?_, ?_, by decide, by decide, by decide⟩
  · intro f h
    have hf : f ≠ [] := by rintro rfl; rcases h with h | h <;> revert h <;> decide
    rcases h with h | h <;> simp [normalize_fonction, hf, h]
  · intro f h
    have hf : f ≠ [] := by rintro rfl; rcases h with h | h <;> revert h <;> decide
    rcases h with h | h <;>
    · have hchef := not_prefixOf_lower_of_upper (strCodes "chef ") f _ h (by decide)
      have hresp := not_prefixOf_lower_of_upper respUnitePat f _ h (by decide)
      simp [normalize_fonction, hf, hchef, hresp, h] <;> decide
  · intro f h
    have hf : f ≠ [] := by rintro rfl; rcases h with h | h <;> revert h <;> decide
    rcases h with h | h <;>
    · have hchef := not_prefixOf_lower_of_upper (strCodes "chef ") f _ h (by decide)
      have hresp := not_prefixOf_lower_of_upper respUnitePat f _ h (by decide)
      simp [normalize_fonction, hf, hchef, hresp, h] <;> decide
  · intro f h
    have hf : f ≠ [] := by rintro rfl; rcases h with h | h <;> revert h <;> decide
    rcases h with h | h <;>
    · have hchef := not_prefixOf_lower_of_upper (strCodes "chef ") f _ h (by decide)
      have hresp := not_prefixOf_lower_of_upper respUnitePat f _ h (by decide)
      simp [normalize_fonction, hf, hchef, hresp, h] <;> decide
  · intro f hf h1 h2 h3 h4 h5 h6 h7 h8
    simp [normalize_fonction, hf, h1, h2, h3, h4, h5, h6, h7, h8]

/-- Witness for C5 at the concrete label SCOUT. -/
theorem spec_C5_normalize_witness :
    normalize_fonction (some (strCodes "SCOUT")) = strCodes "SCOUT/MOUSSE" :=
  spec_C5_normalize.2.2.2.1 (strCodes "SCOUT") (Or.inr (by decide))

/-- C6: the leadership predicate is evaluated on the raw role label and
holds exactly when its lowercase form starts with chef, responsable,
compagnon or accompagnateur; it is independent of the normalizer — the raw
label Chefscout is left unchanged by the normalizer yet classifies as a
leader. -/
theorem spec_C6_is_chef :
    (∀ f : Str, is_chef f = true ↔
      ((strCodes "chef").isPrefixOf (sLower f) = true ∨
       (strCodes "responsable").isPrefixOf (sLower f) = true ∨
       (strCodes "compagnon").isPrefixOf (sLower f) = true ∨
       (strCodes "accompagnateur").isPrefixOf (sLower f) = true)) ∧
    (is_chef (strCodes "Chefscout") = true ∧
     normalize_fonction (some (strCodes "Chefscout")) = strCodes "Chefscout") := by
  refine ⟨?_, by decide, by decide⟩
  intro f
  simp [is_chef, Bool.or_eq_true, or_assoc]

/-- Witness for C6 at the concrete raw label responsable x. -/
theorem spec_C6_is_chef_witness : is_chef (strCodes "responsable x") = true :=
  (spec_C6_is_chef.1 (strCodes "responsable x")).mpr (Or.inr (Or.inl (by decide)))

/-- Substring containment, the model of the Python in operator on strings
used at src/data_service.py line 270. -/
def containsSub : Str → Str → Bool
  | pat, [] => pat.isEmpty
  | pat, c :: rest => pat.isPrefixOf (c :: rest) || containsSub pat rest

/-- The qualification fields of one leadership record read by the diploma
classifier of src/data_service.py lines 264-279.  diplomeJS is the raw
diploma flag (none models an absent or non-string value);
qualificationDir some t models a truthy dict value whose type field reads t
(empty when the dict has no type field), none models an absent, falsy or
non-dict value; appro, tech, apf are the truthiness of the three flags. -/
structure ChefQual where
  diplomeJS : Option Str
  qualificationDir : Option Str
  appro : Bool
  tech : Bool
  apf : Bool

/-- The Director condition of src/data_service.py lines 265-272: the
diploma flag literally equals Scout Dir, or the qualification descriptor
exists and its type field contains the substring directeur after
lower-casing. -/
def dirCond (a : ChefQual) : Bool :=
  a.diplomeJS == some (strCodes "Scout Dir") ||
  (match a.qualificationDir with
   | some t => containsSub (strCodes "directeur") (sLower t)
   | none => false)

/-- The diploma classification chain of src/data_service.py lines 264-279
(identically src/dashboard.py lines 250-265). -/
def classify_diplomeJS (a : ChefQual) : Str :=
  if dirCond a then strCodes "Directeur"
  else if a.appro then strCodes "Appro"
  else if a.tech then strCodes "Tech"
  else if a.apf then strCodes "APF"
  else strCodes "-"

/-- C4: diploma classification is a first-match-wins priority chain —
Director exactly when the diploma flag equals Scout Dir or the
qualification descriptor exists with directeur in its type, otherwise
Appro, Tech, APF by flag, otherwise the dash level; it is total (always
one of the five levels), and a record with diplomeJS Scout Dir and a true
appro flag classifies as Director, never Appro. -/
theorem spec_C4_classify :
    (∀ a : ChefQual, dirCond a = true → classify_diplomeJS a = strCodes "Directeur") ∧
    (∀ a : ChefQual, dirCond a = false → a.appro = true →
      classify_diplomeJS a = strCodes "Appro") ∧
    (∀ a : ChefQual, dirCond a = false → a.appro = false → a.tech = true →
      classify_diplomeJS a = strCodes "Tech") ∧
    (∀ a : ChefQual, dirCond a = false → a.appro = false → a.tech = false → a.apf = true →
      classify_diplomeJS a = strCodes "APF") ∧
    (∀ a : ChefQual, dirCond a = false → a.appro = false → a.tech = false → a.apf = false →
      classify_diplomeJS a = strCodes "-") ∧
    (∀ a : ChefQual, dirCond a = true ↔
      (a.diplomeJS = some (strCodes "Scout Dir") ∨
       ∃ t, a.qualificationDir = some t ∧
         containsSub (strCodes "directeur") (sLower t) = true)) ∧
    (∀ a : ChefQual, classify_diplomeJS a = strCodes "Directeur" ∨
      classify_diplomeJS a = strCodes "Appro" ∨ classify_diplomeJS a = strCodes "Tech" ∨
      classify_diplomeJS a = strCodes "APF" ∨ classify_diplomeJS a = strCodes "-") ∧
    (classify_diplomeJS ⟨some (strCodes "Scout Dir"), none, true, false, false⟩ =
        strCodes "Directeur" ∧
     classify_diplomeJS ⟨some (strCodes "Scout Dir"), none, true, false, false⟩ ≠
        strCodes "Appro") := by
  refine ⟨?_, ?_, ?_, ?_, ?_, ?_, ?_, by decide, by decide⟩
  · intro a h; simp [classify_diplomeJS, h]
  · intro a h ha; simp [classify_diplomeJS, h, ha]
  · intro a h ha ht; simp [classify_diplomeJS, h, ha, ht]
  · intro a h ha ht hp; simp [classify_diplomeJS, h, ha, ht, hp]
  · intro a h ha ht hp; simp [classify_diplomeJS, h, ha, ht, hp]
  · intro a
    cases hq : a.qualificationDir <;> simp [dirCond, hq]
  · intro a
    simp only [classify_diplomeJS]
    split_ifs <;> simp

/-- Witness for C4 at a record carrying only a directeur qualification
descriptor. -/
theorem spec_C4_classify_witness :
    classify_diplomeJS ⟨none, some (strCodes "Directeur SF"), false, true, false⟩ =
      strCodes "Directeur" :=
  spec_C4_classify.1 ⟨none, some (strCodes "Directeur SF"), false, true, false⟩ (by decide)

/-- JSON-ish field values of a member record, with Python truthiness.
From the dict entries manipulated at src/data_service.py lines 196-213. -/
inductive Val where
  | vnull : Val
  | vstr : Str → Val
  | vint : Int → Val
  | vbool : Bool → Val
deriving DecidableEq

/-- Python truthiness of a field value. -/
def Val.truthy : Val → Bool
  | vnull => false
  | vstr s => !s.isEmpty
  | vint n => n != 0
  | vbool b => b

/-- A member record: a Python dict embedded as an insertion-ordered
association list with distinct keys. -/
abbrev Record := List (String × Val)

/-- Dict lookup, the model of adherent.get(key). -/
def rget : Record → String → Option Val
  | [], _ => none
  | p :: rest, k => if p.1 = k then some p.2 else rget rest k

/-- Truthiness of a lookup result: a missing key reads as Python None. -/
def truthyOpt : Option Val → Bool
  | some v => v.truthy
  | none => false

/-- Dict assignment, the model of adherent_existant[key] = value. -/
def rset : Record → String → Val → Record
  | [], k, v => [(k, v)]
  | p :: rest, k, v => if p.1 = k then (k, v) :: rest else p :: rset rest k v

/-- The merge loop of src/data_service.py lines 208-210: each field of the
later record is copied into the accumulator only when it is truthy and the
accumulator holds no truthy value under that key. -/
def merge_adherent : Record → List (String × Val) → Record
  | acc, [] => acc
  | acc, kv :: rest =>
    merge_adherent (if kv.2.truthy && !truthyOpt (rget acc kv.1) then rset acc kv.1 kv.2 else acc) rest

lemma rget_rset_same (r : Record) (k : String) (v : Val) : rget (rset r k v) k = some v := by
  induction r with
  | nil => simp [rset, rget]
  | cons p rest ih =>
    by_cases h : p.1 = k
    · simp [rset, rget, h]
    · simp [rset, rget, h, ih]

lemma rget_rset_other (r : Record) (k k' : String) (v : Val) (h : k' ≠ k) :
    rget (rset r k v) k' = rget r k' := by
  induction r with
  | nil => simp [rset, rget]; intro he; exact absurd he.symm h
  | cons p rest ih =>
    by_cases hp : p.1 = k
    · simp only [rset, if_pos hp]
      have h1 : k ≠ k' := fun he => h he.symm
      have h2 : p.1 ≠ k' := by rw [hp]; exact h1
      simp [rget, h1, h2]
    · simp only [rset, if_neg hp]
      by_cases hp' : p.1 = k'
      · simp [rget, hp']
      · simp [rget, hp', ih]

lemma rget_step (acc : Record) (kv : String × Val) (k : String) (h : kv.1 ≠ k) :
    rget (if kv.2.truthy && !truthyOpt (rget acc kv.1) then rset acc kv.1 kv.2 else acc) k =
      rget acc k := by
  split
  · exact rget_rset_other acc kv.1 k kv.2 (fun he => h he.symm)
  · rfl

lemma merge_preserves (l : List (String × Val)) (acc : Record) (k : String)
    (h : truthyOpt (rget acc k) = true) :
    rget (merge_adherent acc l) k = rget acc k := by
  induction l generalizing acc with
  | nil => rfl
  | cons kv rest ih =>
    by_cases hk : kv.1 = k
    · subst hk
      simp only [merge_adherent, h, Bool.not_true, Bool.and_false, if_neg Bool.false_ne_true]
      exact ih acc h
    · simp only [merge_adherent]
      rw [ih _ (by rw [rget_step acc kv k hk]; exact h), rget_step acc kv k hk]

lemma merge_not_mem (l : List (String × Val)) (acc : Record) (k : String)
    (h : k ∉ l.map Prod.fst) :
    rget (merge_adherent acc l) k = rget acc k := by
  induction l generalizing acc with
  | nil => rfl
  | cons kv rest ih =>
    simp only [List.map_cons, List.mem_cons, not_or] at h
    have hk : kv.1 ≠ k := fun he => h.1 he.symm
    simp only [merge_adherent]
    rw [ih _ h.2, rget_step acc kv k hk]

lemma merge_fills (l : List (String × Val)) (acc : Record) (k : String) (v : Val)
    (hnd : (l.map Prod.fst).Nodup) (hacc : truthyOpt (rget acc k) = false)
    (hl : rget l k = some v) (hv : v.truthy = true) :
    rget (merge_adherent acc l) k = some v := by
  induction l generalizing acc with
  | nil => simp [rget] at hl
  | cons kv rest ih =>
    simp only [List.map_cons, List.nodup_cons] at hnd
    by_cases hk : kv.1 = k
    · subst hk
      have hv2 : kv.2 = v := by simpa [rget] using hl
      subst hv2
      simp only [merge_adherent, hv, hacc, Bool.not_false, Bool.and_true, ite_true, if_true]
      rw [merge_not_mem rest _ _ hnd.1, rget_rset_same]
    · have hl' : rget rest k = some v := by simpa [rget, hk] using hl
      have hstep : truthyOpt (rget
          (if kv.2.truthy && !truthyOpt (rget acc kv.1) then rset acc kv.1 kv.2 else acc) k) =
          false := by
        rw [rget_step acc kv k hk]; exact hacc
      simp only [merge_adherent]
      exact ih _ hnd.2 hstep hl'

lemma merge_no_truthy (l : List (String × Val)) (acc : Record) (k : String)
    (hnd : (l.map Prod.fst).Nodup)
    (h : ∀ v, rget l k = some v → v.truthy = false) :
    rget (merge_adherent acc l) k = rget acc k := by
  induction l generalizing acc with
  | nil => rfl
  | cons kv rest ih =>
    simp only [List.map_cons, List.nodup_cons] at hnd
    by_cases hk : kv.1 = k
    · subst hk
      have hvf : kv.2.truthy = false := h kv.2 (by simp [rget])
      simp only [merge_adherent, hvf, Bool.false_and, if_neg Bool.false_ne_true]
      exact merge_not_mem rest acc kv.1 hnd.1
    · have h' : ∀ v, rget rest k = some v → v.truthy = false := by
        intro v hvv; exact h v (by simpa [rget, hk] using hvv)
      simp only [merge_adherent]
      rw [ih _ hnd.2 h', rget_step acc kv k hk]

/-- Key of the adherents_uniques dict of src/data_service.py line 157:
either the truthy member code, or the Python id() of a codeless record,
modelled by its position in the batch. -/
inductive MKey where
  | byCode : Val → MKey
  | anon : Nat → MKey
deriving DecidableEq

/-- One iteration of the deduplication loop of src/data_service.py
lines 196-213: a record with a truthy member code is merged into the
existing entry for that code or appended as a new entry; a record without
one is always appended under its own identity. -/
def dedup_step (st : List (MKey × Record)) (idx : Nat) (r : Record) : List (MKey × Record) :=
  match rget r "codeAdherent" with
  | some v =>
    if v.truthy then
      if (st.find? (fun p => p.1 == MKey.byCode v)).isSome then
        st.map (fun p => if p.1 == MKey.byCode v then (p.1, merge_adherent p.2 r) else p)
      else st ++ [(MKey.byCode v, r)]
    else st ++ [(MKey.anon idx, r)]
  | none => st ++ [(MKey.anon idx, r)]

def dedup_from (st : List (MKey × Record)) : List (Nat × Record) → List (MKey × Record)
  | [] => st
  | (i, r) :: rest => dedup_from (dedup_step st i r) rest

/-- The full first pass of src/data_service.py lines 196-213 over a batch
of member records. -/
def dedup (rs : List Record) : List (MKey × Record) := dedup_from [] rs.enum

lemma dedup_step_preserves_anon (st : List (MKey × Record)) (i : Nat) (r : Record)
    (j : Nat) (rr : Record) (h : (MKey.anon j, rr) ∈ st) :
    (MKey.anon j, rr) ∈ dedup_step st i r := by
  unfold dedup_step
  cases rget r "codeAdherent" with
  | none => exact List.mem_append_left _ h
  | some v =>
    by_cases hv : v.truthy
    · simp only [hv, if_true]
      split
      · have := List.mem_map_of_mem
          (fun p => if p.1 == MKey.byCode v then (p.1, merge_adherent p.2 r) else p) h
        simpa using this
      · exact List.mem_append_left _ h
    · simp only [hv, if_false]
      exact List.mem_append_left _ h

lemma dedup_from_preserves_anon (l : List (Nat × Record)) (st : List (MKey × Record))
    (j : Nat) (rr : Record) (h : (MKey.anon j, rr) ∈ st) :
    (MKey.anon j, rr) ∈ dedup_from st l := by
  induction l generalizing st with
  | nil => exact h
  | cons p rest ih => exact ih _ (dedup_step_preserves_anon st p.1 p.2 j rr h)

lemma dedup_from_anon (l : List (Nat × Record)) (st : List (MKey × Record))
    (i : Nat) (r : Record) (hmem : (i, r) ∈ l)
    (hcode : truthyOpt (rget r "codeAdherent") = false) :
    (MKey.anon i, r) ∈ dedup_from st l := by
  induction l generalizing st with
  | nil => simp at hmem
  | cons p rest ih =>
    obtain ⟨i2, r2⟩ := p
    rcases List.mem_cons.mp hmem with he | hm
    · rw [Prod.mk.injEq] at he
      obtain ⟨he1, he2⟩ := he
      subst he1; subst he2
      simp only [dedup_from]
      apply dedup_from_preserves_anon
      unfold dedup_step
      cases hg : rget r "codeAdherent" with
      | none => exact List.mem_append_right _ (by simp)
      | some v =>
        have hv : v.truthy = false := by
          have := hcode; rw [hg] at this; exact this
        simp only [hv, if_neg Bool.false_ne_true]
        exact List.mem_append_right _ (by simp)
    · simp only [dedup_from]
      exact ih _ hm

/-- The record code A1, prenom Jean, empty nom of the merge example. -/
def recA1 : Record :=
  [("codeAdherent", Val.vstr (strCodes "A1")),
   ("prenom", Val.vstr (strCodes "Jean")),
   ("nom", Val.vstr [])]

/-- The record code A1, empty prenom, nom Dupont of the merge example. -/
def recA2 : Record :=
  [("codeAdherent", Val.vstr (strCodes "A1")),
   ("prenom", Val.vstr []),
   ("nom", Val.vstr (strCodes "Dupont"))]

/-- C3: during deduplication, a field of the accumulator holding a truthy
value is never overwritten by a merge; a field of the later record is
copied exactly when it is truthy in the later record and empty or falsy in
the accumulator; a record without a truthy member code is kept as its own
unmerged entry of the working set; and merging the records of the example
yields prenom Jean and nom Dupont. -/
theorem spec_C3_dedup_merge :
    (∀ acc l k, truthyOpt (rget acc k) = true →
      rget (merge_adherent acc l) k = rget acc k) ∧
    (∀ acc l k v, (l.map Prod.fst).Nodup → truthyOpt (rget acc k) = false →
      rget l k = some v → v.truthy = true →
      rget (merge_adherent acc l) k = some v) ∧
    (∀ acc l k, (l.map Prod.fst).Nodup →
      (∀ v, rget l k = some v → v.truthy = false) →
      rget (merge_adherent acc l) k = rget acc k) ∧
    (∀ rs i r, (i, r) ∈ rs.enum → truthyOpt (rget r "codeAdherent") = false →
      (MKey.anon i, r) ∈ dedup rs) ∧
    (rget (merge_adherent recA1 recA2) "prenom" = some (Val.vstr (strCodes "Jean")) ∧
     rget (merge_adherent recA1 recA2) "nom" = some (Val.vstr (strCodes "Dupont"))) := by
  refine ⟨?_, ?_, ?_, ?_, by decide, by decide⟩
  · intro acc l k h; exact merge_preserves l acc k h
  · intro acc l k v hnd hacc hl hv; exact merge_fills l acc k v hnd hacc hl hv
  · intro acc l k hnd h; exact merge_no_truthy l acc k hnd h
  · intro rs i r hmem hcode; exact dedup_from_anon rs.enum [] i r hmem hcode

/-- Witness for C3: the truthy code field of the first example record
survives the example merge unchanged. -/
theorem spec_C3_dedup_merge_witness :
    rget (merge_adherent recA1 recA2) "codeAdherent" = rget recA1 "codeAdherent" :=
  spec_C3_dedup_merge.1 recA1 recA2 "codeAdherent" (by decide)

/-- A pivot-table cell as read by the statistics-page row styler
(src/page_statistiques.py lines 575-594): some n models a value whose
int(float(_)) conversion yields n — an absent column reads as the default
0 — and none models a value whose conversion raises. -/
abbrev Cell := Option Int

/-- The youth role columns FONCTIONS_JEUNES of src/page_statistiques.py
lines 570-573. -/
def youthCols : List String :=
  ["SCOUT/MOUSSE", "PIONNIER/MARIN", "LOUVETEAU/MOUSSAILLON",
   "JEANNETTE", "GUIDE", "CARAVELLE"]

/-- row.get(key, 0) of src/page_statistiques.py: the cell when the column
exists, else the default 0 (whose conversion always succeeds). -/
def ps_get (row : List (String × Cell)) (k : String) : Cell :=
  match row.find? (fun p => p.1 == k) with
  | some p => p.2
  | none => some 0

/-- int(float(value)) as a fallible conversion. -/
def cellInt : Cell → Except Unit Int
  | some n => .ok n
  | none => .error ()

/-- The highlight colour of src/page_statistiques.py lines 605 and 613. -/
def orangeStyle : String := "background-color: #ffe6cc; color: black;"

/-- The youth headcount of src/page_statistiques.py lines 575-581: each
cell conversion failure is caught individually and skipped. -/
def ps_nb_jeunes (row : List (String × Cell)) : Int :=
  youthCols.foldl (fun a f => a + ((ps_get row f).getD 0)) 0

/-- The body of highlight_row of src/page_statistiques.py lines 567-615
inside its try block: errors model exceptions escaping the diploma-count
conversions of lines 591-594.  The alert-details side channel
(details_alertes_camp) is not modelled — no claim mentions it.  Note the
oversized-unit branch is an elif of the quota branch (line 612). -/
def psHighlightCore (row : List (String × Cell)) : Except Unit (List String × List String) :=
  let nbJeunes := ps_nb_jeunes row
  if nbJeunes < 7 then .ok (List.replicate row.length "", [])
  else
    match cellInt (ps_get row "Directeur (Qualifié)"),
        cellInt (ps_get row "Appro (Qualifié)"),
        cellInt (ps_get row "Tech (Qualifié)"),
        cellInt (ps_get row "APF (Stagiaire)"),
        cellInt (ps_get row "Sans diplôme (Non qualifié)") with
    | .ok nbDir, .ok q1, .ok q2, .ok nbStag, .ok nbAutres =>
      let r := verifier_quotas_camp_sgdf nbJeunes nbDir (q1 + q2) nbStag nbAutres
      if r.1 = false then
        .ok (List.replicate row.length orangeStyle, ["quota_camp_insuffisant"])
      else if 35 < nbJeunes then
        .ok (List.replicate row.length orangeStyle, ["plus_35_jeunes"])
      else .ok (List.replicate row.length "", [])
    | _, _, _, _, _ => .error ()

/-- highlight_row of src/page_statistiques.py lines 559-621: the except
clause of lines 617-619 neutralizes any failure to empty styles and no
alerts. -/
def ps_highlight_row (row : List (String × Cell)) : List String × List String :=
  match psHighlightCore row with
  | .ok v => v
  | .error _ => (List.replicate row.length "", [])

/-- A dashboard pivot cell (src/dashboard.py lines 289-397): some n models
a cell whose str() form is a digit string of value n, none a non-digit
cell; both a missing column (KeyError, swallowed by the bare except) and a
non-digit value leave the count at 0. -/
def db_get_digit (row : List (String × Option Nat)) (k : String) : Nat :=
  match row.find? (fun p => p.1 == k) with
  | some p =>
    match p.2 with
    | some n => n
    | none => 0
  | none => 0

/-- Youth count of src/dashboard.py lines 302-355, selected by structure
kind: FARFADET column if present, else COMPAGNON, else the sum of the three
merged youth categories that appear among the columns. -/
def db_nb_jeunes (cols : List String) (row : List (String × Option Nat)) : Nat :=
  if "FARFADET" ∈ cols then db_get_digit row "FARFADET"
  else if "COMPAGNON" ∈ cols then db_get_digit row "COMPAGNON"
  else
    (["SCOUT/MOUSSE", "PIONNIER/MARIN", "LOUVETEAU/MOUSSAILLON"].map
      (fun f => if f ∈ cols then db_get_digit row f else 0)).sum

/-- Leader count of src/dashboard.py: the Chef/Cheftaine column when
present among the role columns, else 0 (identical in all three structure
kinds). -/
def db_nb_chefs (cols : List String) (row : List (String × Option Nat)) : Nat :=
  if "Chef/Cheftaine" ∈ cols then db_get_digit row "Chef/Cheftaine" else 0

/-- Required ratio of src/dashboard.py lines 305-365. -/
def db_ratio (cols : List String) : Nat :=
  if "FARFADET" ∈ cols then 12 else if "COMPAGNON" ∈ cols then 8 else 12

/-- Ratio alert name of src/dashboard.py lines 306-365. -/
def db_alert_type (cols : List String) : String :=
  if "FARFADET" ∈ cols then "ratio_farfadet"
  else if "COMPAGNON" ∈ cols then "ratio_compagnon"
  else "ratio_chefs"

/-- Director count of src/dashboard.py lines 368-374. -/
def db_nb_directeurs (row : List (String × Option Nat)) : Nat := db_get_digit row "Directeur"

/-- highlight_row of src/dashboard.py lines 289-397.  The three checks run
in sequence, each overwriting the colour but all appending their alert.
The ratio test nb_chefs less than nb_jeunes divided by ratio uses Python
true division; for integers and a positive ratio it is exactly
ratio times nb_chefs less than nb_jeunes, the form used here. -/
def dashboard_highlight_row (row : List (String × Option Nat)) (cols : List String) :
    List String × List String :=
  let nbJeunes := db_nb_jeunes cols row
  let nbChefs := db_nb_chefs cols row
  let nbDirecteurs := db_nb_directeurs row
  let ratioAlert := 0 < nbJeunes ∧ db_ratio cols * nbChefs < nbJeunes
  let overAlert := 35 < nbJeunes
  let noDirAlert := 0 < nbChefs ∧ nbDirecteurs = 0
  let alerts := (if ratioAlert then [db_alert_type cols] else []) ++
    (if overAlert then ["plus_35_jeunes"] else []) ++
    (if noDirAlert then ["aucun_directeur"] else [])
  let color := if noDirAlert then some "background-color: #ffffcc"
    else if overAlert then some "background-color: #ffe6cc"
    else if ratioAlert then some "background-color: #ffcccc"
    else none
  (match color with
   | some c => List.replicate row.length c
   | none => List.replicate row.length "", alerts)

/-- highlight_chef_sans_diplome of src/page_statistiques.py lines 623-629
(identically src/dashboard.py lines 400-406), applied to one leader table
row carrying the given diploma level. -/
def highlight_chef_sans_diplome (diplome : Str) (rowLen : Nat) : List String :=
  if diplome = strCodes "-" then List.replicate rowLen "background-color: #ffcccc"
  else List.replicate rowLen ""

lemma psCore_alerts (row : List (String × Cell)) (r : List String × List String)
    (h : psHighlightCore row = .ok r) :
    r.2 = [] ∨ r.2 = ["quota_camp_insuffisant"] ∨ r.2 = ["plus_35_jeunes"] := by
  unfold psHighlightCore at h
  split at h
  · dsimp only at h
    split at h
    · cases h; exact Or.inl rfl
    · split at h
      · cases h; exact Or.inr (Or.inl rfl)
      · split at h
        · cases h; exact Or.inr (Or.inr rfl)
        · cases h; exact Or.inl rfl
  · dsimp only at h
    split at h
    · cases h; exact Or.inl rfl
    · simp at h

lemma ps_alerts_cases (row : List (String × Cell)) :
    (ps_highlight_row row).2 = [] ∨ (ps_highlight_row row).2 = ["quota_camp_insuffisant"] ∨
    (ps_highlight_row row).2 = ["plus_35_jeunes"] := by
  rcases h : psHighlightCore row with e | v
  · simp [ps_highlight_row, h]
  · have hc := psCore_alerts row v h
    simp only [ps_highlight_row, h]
    exact hc

/-- A statistics-page pivot row with 40 youths and no staffed adult at
all: the camp-quota check fails, so the oversized-unit branch is never
reached. -/
def psRowOver : List (String × Cell) :=
  [("SCOUT/MOUSSE", some 40), ("Chef/Cheftaine", some 1),
   ("Directeur (Qualifié)", some 0), ("Appro (Qualifié)", some 0),
   ("Tech (Qualifié)", some 0), ("APF (Stagiaire)", some 0),
   ("Sans diplôme (Non qualifié)", some 0)]

/-- Counterexample to C7 as stated: a statistics-page row whose youth
headcount 40 exceeds 35 and whose staffing check fails receives only the
insufficient-staffing alert — the oversized-unit alert is not in the
returned alert set. -/
theorem spec_C7_counterexample :
    35 < ps_nb_jeunes psRowOver ∧
    (ps_highlight_row psRowOver).2 = ["quota_camp_insuffisant"] ∧
    "plus_35_jeunes" ∉ (ps_highlight_row psRowOver).2 := by decide

/-- C7 as amended: in the dashboard row evaluation the checks do
accumulate — any row with youth headcount above 35 receives the
oversized-unit alert even together with other alerts; but in the
statistics-page row evaluation the oversized-unit check is an elif of the
staffing check, so a row carrying the insufficient-staffing alert never
also carries the oversized-unit alert. -/
theorem spec_C7_amended :
    (∀ (row : List (String × Option Nat)) (cols : List String),
      35 < db_nb_jeunes cols row →
      "plus_35_jeunes" ∈ (dashboard_highlight_row row cols).2) ∧
    (∀ row : List (String × Cell),
      "quota_camp_insuffisant" ∈ (ps_highlight_row row).2 →
      "plus_35_jeunes" ∉ (ps_highlight_row row).2) := by
  constructor
  · intro row cols h
    simp only [dashboard_highlight_row, List.mem_append]
    left; right
    simp [h]
  · intro row hq
    rcases ps_alerts_cases row with h | h | h <;> rw [h] <;> rw [h] at hq <;> simp_all

/-- Witness for C7 as amended: a dashboard row with 40 youths and one
leader accumulates the oversized alert, and the statistics-page
counterexample row does not carry it. -/
theorem spec_C7_amended_witness :
    "plus_35_jeunes" ∈
      (dashboard_highlight_row
        [("SCOUT/MOUSSE", some 40), ("Chef/Cheftaine", some 1), ("Directeur", some 0)]
        ["SCOUT/MOUSSE", "Chef/Cheftaine"]).2 ∧
    "plus_35_jeunes" ∉ (ps_highlight_row psRowOver).2 :=
  ⟨spec_C7_amended.1 _ _ (by decide), spec_C7_amended.2 psRowOver (by decide)⟩

/-- A dashboard unit row with 12 youths, 3 leaders and no director. -/
def dbRow3 : List (String × Option Nat) :=
  [("SCOUT/MOUSSE", some 12), ("Chef/Cheftaine", some 3),
   ("Directeur", some 0), ("Appro", some 0), ("Tech", some 0),
   ("APF", some 0), ("Sans diplôme", some 0)]

/-- The role columns of the dbRow3 pivot. -/
def dbCols3 : List String := ["SCOUT/MOUSSE", "Chef/Cheftaine"]

/-- A statistics-page pivot row with 12 youths, 3 leaders and a zero
director count: the page_statistiques row evaluation emits no alert named
aucun_directeur for it (nor for any row). -/
def psRow3 : List (String × Cell) :=
  [("SCOUT/MOUSSE", some 12), ("Chef/Cheftaine", some 3),
   ("Directeur (Qualifié)", some 0), ("Appro (Qualifié)", some 0),
   ("Tech (Qualifié)", some 0), ("APF (Stagiaire)", some 0),
   ("Sans diplôme (Non qualifié)", some 0)]

/-- Counterexample to C8 as stated: the statistics-page row evaluation,
cited by the claim alongside the dashboard one, applied to a concrete unit
row with leader count 3 and director count 0, does not put the no-director
alert in the returned alert set. -/
theorem spec_C8_counterexample :
    ps_get psRow3 "Chef/Cheftaine" = some 3 ∧
    ps_get psRow3 "Directeur (Qualifié)" = some 0 ∧
    "aucun_directeur" ∉ (ps_highlight_row psRow3).2 := by decide

/-- C8 as amended: in the dashboard row evaluation, every unit row with a
positive leader count and a zero director count receives the no-director
alert; the statistics-page row evaluation never emits a no-director alert
for any row; separately, every leader table row at the dash diploma level
is flagged by the leader highlighting; and the unit of the example —
3 leaders all without diploma — triggers, in the dashboard evaluation,
both the no-director alert and 3 flagged leader rows. -/
theorem spec_C8_no_director :
    (∀ (row : List (String × Option Nat)) (cols : List String),
      0 < db_nb_chefs cols row → db_nb_directeurs row = 0 →
      "aucun_directeur" ∈ (dashboard_highlight_row row cols).2) ∧
    (∀ row : List (String × Cell), "aucun_directeur" ∉ (ps_highlight_row row).2) ∧
    (∀ (d : Str) (len : Nat), d = strCodes "-" →
      highlight_chef_sans_diplome d len =
        List.replicate len "background-color: #ffcccc") ∧
    ("aucun_directeur" ∈ (dashboard_highlight_row dbRow3 dbCols3).2 ∧
     (List.replicate 3 (strCodes "-")).map (fun d => highlight_chef_sans_diplome d 6) =
       List.replicate 3 (List.replicate 6 "background-color: #ffcccc")) := by
  refine ⟨?_, ?_, ?_, by decide, by decide⟩
  · intro row cols hc hd
    simp only [dashboard_highlight_row, List.mem_append]
    right
    simp [hc, hd]
  · intro row
    rcases ps_alerts_cases row with h | h | h <;> simp [h]
  · intro d len h
    simp [highlight_chef_sans_diplome, h]

/-- Witness for C8 at the concrete example row with 3 leaders and no
director. -/
theorem spec_C8_no_director_witness :
    "aucun_directeur" ∈ (dashboard_highlight_row dbRow3 dbCols3).2 :=
  spec_C8_no_director.1 dbRow3 dbCols3 (by decide) (by decide)

/-- A statistics-page row whose director cell does not convert to a
number: its styling raises inside the try block. -/
def psRowBad : List (String × Cell) :=
  [("SCOUT/MOUSSE", some 10), ("Directeur (Qualifié)", none)]

/-- C9: whenever the computation of a row's alerts and styles raises, the
row evaluation catches it and returns empty styles and an empty alert
list for that row, and evaluating a batch of rows always produces one
result per row — a faulty row never aborts the rest. -/
theorem spec_C9_row_fault_neutralized :
    (∀ row : List (String × Cell), psHighlightCore row = .error () →
      ps_highlight_row row = (List.replicate row.length "", [])) ∧
    (∀ rows : List (List (String × Cell)),
      (rows.map ps_highlight_row).length = rows.length) := by
  constructor
  · intro row h
    unfold ps_highlight_row
    rw [h]
  · intro rows
    simp

/-- Witness for C9 at the concrete faulty row psRowBad. -/
theorem spec_C9_row_fault_witness :
    ps_highlight_row psRowBad = (List.replicate psRowBad.length "", []) :=
  spec_C9_row_fault_neutralized.1 psRowBad (by rfl)
